import Mathlib

/-!
Shallow embedding of the network-latency toolkit (src/src/main.rs).

Bytes are modelled as natural numbers and byte buffers as lists. Socket
operations are modelled through explicit environments: for each loop
iteration the environment says whether a write/send succeeded and what a
read/recv returned. A fallible operation yields `Except Unit` values:
`.ok` carries the bytes involved, `.error ()` is an operating-system I/O
error. Fuel arguments make unbounded `while` loops total functions.
-/

/-- Outcome of one client role run (`start_tcp_client`, `start_udp_client`,
or the iteration loop of `start_tcp_tester`): either all iterations were
performed, or the run was aborted at iteration `i` by a write/send error,
a read/recv error, or the `assert_eq!(data, recv_data)` failure. -/
inductive ClientExit where
  | success
  | writeErr (i : Nat)
  | readErr (i : Nat)
  | assertFail (i : Nat)
deriving DecidableEq, Repr

/-- Result of running a client loop: how many `println!("{} us elapsed", ...)`
lines were produced, and how the loop ended. -/
structure ClientRun where
  printed : Nat
  exit : ClientExit
deriving DecidableEq, Repr

/-- Model of `std::io::Write::write_all` on a TCP stream: it performs no underlying
write at all when the buffer is empty (so it cannot fail then); otherwise
the environment decides whether the write succeeds. -/
def writeAllOk (data : List Nat) (envOk : Bool) : Bool :=
  data.isEmpty || envOk

/-- Model of `std::io::Read::read_exact` into a buffer of `dataSize` bytes: when the
buffer is empty it returns `Ok` immediately without touching the stream;
otherwise the environment supplies the result (on success the buffer holds
exactly the returned bytes). -/
def readExactResult (dataSize : Nat) (envRes : Except Unit (List Nat)) :
    Except Unit (List Nat) :=
  if dataSize = 0 then Except.ok [] else envRes

/-- Per-iteration environment of `start_tcp_client`: whether the
`stream.write_all(data)` succeeds, and what `stream.read_exact(recv_data)`
returns. (`stream.flush()` on a `TcpStream` always returns `Ok(())` in the
standard library, so it is not part of the environment.) -/
structure TcpIterEnv where
  writeOk : Bool
  readRes : Except Unit (List Nat)

/-- The `for _ in 0..repeat` loop of `start_tcp_client` (main.rs lines
224-232), from iteration `i` with `rem` iterations left. Each iteration:
fill `data` with `payload i` (the `rand::thread_rng().fill_bytes` output),
`write_all`, `flush`, `read_exact` into `recv_data`, `assert_eq!(data,
recv_data)`, print the elapsed time. Any `.unwrap()` failure or assertion
failure aborts the whole run. -/
def start_tcp_client_loop (dataSize : Nat) (payload : Nat → List Nat)
    (env : Nat → TcpIterEnv) : Nat → Nat → ClientRun
  | 0, _ => ⟨0, ClientExit.success⟩
  | rem + 1, i =>
    let data := payload i
    if writeAllOk data (env i).writeOk then
      match readExactResult dataSize (env i).readRes with
      | Except.error _ => ⟨0, ClientExit.readErr i⟩
      | Except.ok recv =>
        if data = recv then
          let rest := start_tcp_client_loop dataSize payload env rem (i + 1)
          ⟨rest.printed + 1, rest.exit⟩
        else ⟨0, ClientExit.assertFail i⟩
    else ⟨0, ClientExit.writeErr i⟩

/-- Run of `start_tcp_client` after a successful `TcpStream::connect`: run the
iteration loop for `repeat` iterations. (The trailing
`stream.shutdown(Shutdown::Both)` affects no observable modelled here.) -/
def start_tcp_client_run (dataSize : Nat) (payload : Nat → List Nat)
    (env : Nat → TcpIterEnv) (rep : Nat) : ClientRun :=
  start_tcp_client_loop dataSize payload env rep 0

/-- The iteration loop of `start_tcp_tester` (main.rs lines 174-181): same
shape as the TCP client loop, but `write_all` goes to the separately
connected `send_stream` and `read_exact` reads from the accepted
`recv_stream`; there is no `flush` call. -/
def start_tcp_tester_loop (dataSize : Nat) (payload : Nat → List Nat)
    (env : Nat → TcpIterEnv) : Nat → Nat → ClientRun
  | 0, _ => ⟨0, ClientExit.success⟩
  | rem + 1, i =>
    let data := payload i
    if writeAllOk data (env i).writeOk then
      match readExactResult dataSize (env i).readRes with
      | Except.error _ => ⟨0, ClientExit.readErr i⟩
      | Except.ok recv =>
        if data = recv then
          let rest := start_tcp_tester_loop dataSize payload env rem (i + 1)
          ⟨rest.printed + 1, rest.exit⟩
        else ⟨0, ClientExit.assertFail i⟩
    else ⟨0, ClientExit.writeErr i⟩

/-- Per-iteration environment of `start_udp_client`: whether `socket.send`
succeeds (a UDP send is a real system call even for an empty slice, and on
this unconnected socket it is expected to fail), and what datagram
`socket.recv` delivers. -/
structure UdpIterEnv where
  sendOk : Bool
  recvRes : Except Unit (List Nat)

/-- Model of `UdpSocket::recv` into buffer `buf`: the arriving datagram `dgram` is
truncated to the buffer length and overwrites the front of the buffer; the
rest of the buffer keeps its previous (stale) contents. The returned size
is ignored by `start_udp_client`. -/
def udpRecvInto (buf dgram : List Nat) : List Nat :=
  dgram.take buf.length ++ buf.drop (min dgram.length buf.length)

/-- The `for _ in 0..repeat` loop of `start_udp_client` (main.rs lines
242-249), carrying the reused `recv_data` buffer across iterations. Each
iteration: fill `data` with `payload i`, `socket.send(data)`,
`socket.recv(recv_data)` (ignoring the returned size), `assert_eq!(data,
recv_data)`, print the elapsed time. -/
def start_udp_client_loop (payload : Nat → List Nat)
    (env : Nat → UdpIterEnv) : Nat → Nat → List Nat → ClientRun
  | 0, _, _ => ⟨0, ClientExit.success⟩
  | rem + 1, i, recvData =>
    if (env i).sendOk then
      match (env i).recvRes with
      | Except.error _ => ⟨0, ClientExit.readErr i⟩
      | Except.ok dgram =>
        let newRecv := udpRecvInto recvData dgram
        if payload i = newRecv then
          let rest := start_udp_client_loop payload env rem (i + 1) newRecv
          ⟨rest.printed + 1, rest.exit⟩
        else ⟨0, ClientExit.assertFail i⟩
    else ⟨0, ClientExit.writeErr i⟩

/-- Run of `start_udp_client` after a successful `UdpSocket::bind`: the
`recv_data` buffer starts as `vec![0; data_size]`. -/
def start_udp_client_run (dataSize : Nat) (payload : Nat → List Nat)
    (env : Nat → UdpIterEnv) (rep : Nat) : ClientRun :=
  start_udp_client_loop payload env rep 0 (List.replicate dataSize 0)

/-- Per-iteration environment of the TCP echo server's per-connection
handler (`handle_client` inside `start_tcp_server`): what `stream.read`
returns (on success, the bytes it produced; `Ok` with no bytes is the
end-of-file result for a closed peer), and whether the
`stream.write_all`/`flush` pair succeeds. -/
structure SrvIter where
  readRes : Except Unit (List Nat)
  writeOk : Bool

/-- How the handler loop of the TCP echo server ended on the supplied
events: the `while let Ok(size)` failed (read error), a `write_all` or
`flush` `.unwrap()` aborted the handler thread, or the events ran out with
the loop still going. -/
inductive SrvExit where
  | readErr
  | writeAbort
  | pending
deriving DecidableEq, Repr

/-- The loop of `handle_client` inside `start_tcp_server` (main.rs lines
196-202), over a finite list of read events: `while let Ok(size) =
stream.read(buf)` with `buf` of `maxDataSize` bytes (a read returns at
most `maxDataSize` bytes, hence the truncation), then
`stream.write_all(&buf[..size])` and `stream.flush()`. Returns the list
of byte chunks written back, in order, and how the loop ended. A
zero-length `write_all` performs no underlying write and cannot fail. -/
def tcp_server_handle_client (maxDataSize : Nat) :
    List SrvIter → List (List Nat) × SrvExit
  | [] => ([], SrvExit.pending)
  | it :: rest =>
    match it.readRes with
    | Except.error _ => ([], SrvExit.readErr)
    | Except.ok raw =>
      let chunk := raw.take maxDataSize
      if chunk.isEmpty || it.writeOk then
        let r := tcp_server_handle_client maxDataSize rest
        (chunk :: r.1, r.2)
      else ([], SrvExit.writeAbort)

/-- The same handler loop over an infinite oracle of read results, with
`fuel` bounding how many iterations we unfold starting at read index `i`.
Returns `true` when the loop exited (read error, or a failed nonempty
write aborting the thread) within `fuel` iterations, `false` when it is
still running after `fuel` iterations. -/
def tcp_server_handle_client_ends (maxDataSize : Nat)
    (reads : Nat → Except Unit (List Nat)) (writeOk : Nat → Bool) :
    Nat → Nat → Bool
  | 0, _ => false
  | fuel + 1, i =>
    match reads i with
    | Except.error _ => true
    | Except.ok raw =>
      let chunk := raw.take maxDataSize
      if chunk.isEmpty || writeOk i then
        tcp_server_handle_client_ends maxDataSize reads writeOk fuel (i + 1)
      else true

/-- Per-iteration environment of `start_udp_server`: what
`socket.recv_from` returns (datagram bytes and the peer address it came
from), and whether the `socket.send_to` back to that peer succeeds. -/
structure UdpSrvIter (α : Type) where
  recvRes : Except Unit (List Nat × α)
  sendOk : Bool

/-- The loop of `start_udp_server` (main.rs lines 213-216): `while let
Ok((size, peer_addr)) = socket.recv_from(buf)` with `buf` of
`maxDataSize` bytes (`recv_from` truncates a longer datagram), then
`socket.send_to(&buf[..size], peer_addr).unwrap()`. Returns the replies
sent, each a byte chunk paired with its destination address. -/
def start_udp_server {α : Type} (maxDataSize : Nat) :
    List (UdpSrvIter α) → List (List Nat × α)
  | [] => []
  | it :: rest =>
    match it.recvRes with
    | Except.error _ => []
    | Except.ok (d, peer) =>
      let chunk := d.take maxDataSize
      if it.sendOk then (chunk, peer) :: start_udp_server maxDataSize rest
      else []

/-- Per-iteration environment of `start_udp_forwarder`: what `socket.recv`
returns (the datagram bytes; `recv` discards the source address), and
whether the `socket.send_to` to the fixed remote address succeeds. -/
structure UdpFwdIter where
  recvRes : Except Unit (List Nat)
  sendOk : Bool

/-- The loop of `start_udp_forwarder` (main.rs lines 188-190): `while let
Ok(size) = socket.recv(buf)` with `buf` of `maxDataSize` bytes, then
`socket.send_to(&buf[..size], remote_addr).unwrap()`. Returns the
datagrams sent, each a byte chunk paired with its destination address,
which is always `remoteAddr`. -/
def start_udp_forwarder {α : Type} (remoteAddr : α) (maxDataSize : Nat) :
    List UdpFwdIter → List (List Nat × α)
  | [] => []
  | it :: rest =>
    match it.recvRes with
    | Except.error _ => []
    | Except.ok d =>
      let chunk := d.take maxDataSize
      if it.sendOk then
        (chunk, remoteAddr) :: start_udp_forwarder remoteAddr maxDataSize rest
      else []

/-- Observable setup events of `start_tcp_tester`: binding the listener,
accepting the one inbound connection, a `TcpStream::connect` attempt with
its outcome, the `std::thread::sleep` (duration in seconds), and the two
`eprintln!` log lines. -/
inductive TesterEvent (α : Type) where
  | bindLocal (addr : α)
  | acceptConn
  | connectTry (addr : α) (ok : Bool)
  | sleepSec (n : Nat)
  | logConnected (addr : α)
  | logTrying (addr : α)
deriving DecidableEq, Repr

/-- The retry-connect loop of `start_tcp_tester` (main.rs lines 162-169):
attempt `TcpStream::connect(remote_addr)`; on success log "connected" and
break; on failure sleep one second and log "trying to connect", then loop.
`conn k` says whether attempt number `k` succeeds; `fuel` bounds how many
attempts are unfolded (an empty result means the loop was still retrying
after `fuel` attempts). -/
def start_tcp_tester_retry {α : Type} (remoteAddr : α) (conn : Nat → Bool) :
    Nat → Nat → List (TesterEvent α)
  | 0, _ => []
  | fuel + 1, k =>
    if conn k then
      [TesterEvent.connectTry remoteAddr true, TesterEvent.logConnected remoteAddr]
    else
      TesterEvent.connectTry remoteAddr false :: TesterEvent.sleepSec 1 ::
        TesterEvent.logTrying remoteAddr ::
          start_tcp_tester_retry remoteAddr conn fuel (k + 1)

/-- The setup phase of `start_tcp_tester` (main.rs lines 159-169): bind the
listener, block on `listener.incoming().next()` until exactly one inbound
connection is accepted, and only then enter the retry-connect loop for the
send leg. -/
def start_tcp_tester_setup {α : Type} (localAddr remoteAddr : α)
    (conn : Nat → Bool) (fuel : Nat) : List (TesterEvent α) :=
  TesterEvent.bindLocal localAddr :: TesterEvent.acceptConn ::
    start_tcp_tester_retry remoteAddr conn fuel 0

/-- The three events one failed connect attempt of the tester's retry loop
produces, in order. -/
def testerFailBlock {α : Type} (remoteAddr : α) : List (TesterEvent α) :=
  [TesterEvent.connectTry remoteAddr false, TesterEvent.sleepSec 1,
   TesterEvent.logTrying remoteAddr]

/-- Event classifier: is this the accept of an inbound connection? -/
def isAcceptEvent {α : Type} : TesterEvent α → Bool
  | TesterEvent.acceptConn => true
  | _ => false

/-- Event classifier: is this a connect attempt, a sleep, or a log line
(the activities of the tester's send-leg retry loop)? -/
def isRetryActivity {α : Type} : TesterEvent α → Bool
  | TesterEvent.connectTry _ _ => true
  | TesterEvent.sleepSec _ => true
  | TesterEvent.logConnected _ => true
  | TesterEvent.logTrying _ => true
  | _ => false

/-- Startup of `start_tcp_client`: the single `TcpStream::connect(addr)` is
a single attempt whose failure aborts the role at once (`.unwrap()`),
yielding no run at all; there is no reconnect loop. -/
def start_tcp_client_role (connectOk : Bool) (dataSize : Nat)
    (payload : Nat → List Nat) (env : Nat → TcpIterEnv) (rep : Nat) :
    Option ClientRun :=
  if connectOk then some (start_tcp_client_run dataSize payload env rep)
  else none

/-- Startup of `start_tcp_forwarder` (main.rs lines 131-132): a single
`TcpListener::bind` and a single `TcpStream::connect`, each `.unwrap()`ed;
either failure aborts the role with no retry. Returns how many connect
attempts were made paired with whether the role survived startup. -/
def start_tcp_forwarder_startup (bindOk connectOk : Bool) : Nat × Bool :=
  if bindOk then (1, connectOk) else (0, false)

/-- Socket calls `start_udp_client` can be observed to make, with `α` the
address type: binding the local address, connecting the socket to a peer,
a destination-less `send`, an addressed `send_to`, and `recv`. -/
inductive UdpCall (α : Type) where
  | bind (addr : α)
  | connect (addr : α)
  | send (data : List Nat)
  | sendTo (data : List Nat) (dest : α)
  | recv
deriving DecidableEq, Repr

/-- Call classifier: a destination-less `send` or a `recv`, the only calls
the body of the `start_udp_client` loop performs. -/
def isPlainSendRecv {α : Type} : UdpCall α → Bool
  | UdpCall.send _ => true
  | UdpCall.recv => true
  | _ => false

/-- The socket calls made by the loop of `start_udp_client` (main.rs lines
242-249), mirroring `start_udp_client_loop`: each iteration issues
`socket.send(data)` (no destination argument), and, if that succeeded,
`socket.recv(recv_data)`; an `.unwrap()` or assertion failure stops the
run, so no further calls follow it. -/
def start_udp_client_calls_loop {α : Type} (payload : Nat → List Nat)
    (env : Nat → UdpIterEnv) : Nat → Nat → List Nat → List (UdpCall α)
  | 0, _, _ => []
  | rem + 1, i, recvData =>
    UdpCall.send (payload i) ::
      (if (env i).sendOk then
        UdpCall.recv ::
          (match (env i).recvRes with
          | Except.error _ => []
          | Except.ok dgram =>
            let newRecv := udpRecvInto recvData dgram
            if payload i = newRecv then
              start_udp_client_calls_loop payload env rem (i + 1) newRecv
            else [])
      else [])

/-- All socket calls of `start_udp_client`: one `UdpSocket::bind` on the
given local address, then the loop's calls. The socket is never
`connect`ed and no call carries a destination address. -/
def start_udp_client_calls {α : Type} (localAddr : α) (dataSize : Nat)
    (payload : Nat → List Nat) (env : Nat → UdpIterEnv) (rep : Nat) :
    List (UdpCall α) :=
  UdpCall.bind localAddr ::
    start_udp_client_calls_loop payload env rep 0 (List.replicate dataSize 0)

/-- Commands of one `handle_client` handler inside `start_tcp_forwarder`
(main.rs lines 134-145), at byte granularity for the upstream writes:
read one batch from the local peer (outside the lock), acquire the shared
upstream lock, write the batch's bytes one by one (`write_all` may issue
several underlying writes), flush, and release the lock (the guard `g`
drops at the end of the loop body). -/
inductive FwdCmd where
  | readChunk (c : List Nat)
  | acquire
  | writeByte (b : Nat)
  | flushUp
  | release
deriving DecidableEq, Repr

/-- The command sequence of one forwarder handler whose successive reads
from its local peer return `chunks`: per read-batch, exactly one lock
acquisition, then the batch's bytes, a flush, and the release. -/
def tcp_forwarder_handler_prog : List (List Nat) → List FwdCmd
  | [] => []
  | c :: cs =>
    FwdCmd.readChunk c :: FwdCmd.acquire ::
      (c.map FwdCmd.writeByte ++
        FwdCmd.flushUp :: FwdCmd.release :: tcp_forwarder_handler_prog cs)

/-- Events observable on the shared upstream connection and its lock:
thread `t` acquired the lock, wrote byte `b`, or released the lock. -/
inductive FwdEvent where
  | acq (t : Nat)
  | wr (t : Nat) (b : Nat)
  | rel (t : Nat)
deriving DecidableEq, Repr

/-- Global state of the forwarder's concurrent handlers: who holds the
upstream mutual-exclusion lock, each thread's remaining commands (threads
are named by naturals; a thread that was never spawned has no commands),
and the event trace on the shared upstream so far. -/
structure FwdState where
  lockOwner : Option Nat
  threads : Nat → List FwdCmd
  trace : List FwdEvent

/-- One scheduler step: thread `t` executes its next command if it can.
Acquiring blocks (no state change) while another thread holds the lock;
reading is a thread-local action; writes and releases append upstream
events. A finished thread does nothing. -/
def fwdStep (s : FwdState) (t : Nat) : FwdState :=
  match s.threads t with
  | [] => s
  | FwdCmd.readChunk _ :: rest =>
    { s with threads := Function.update s.threads t rest }
  | FwdCmd.acquire :: rest =>
    match s.lockOwner with
    | none =>
      { lockOwner := some t, threads := Function.update s.threads t rest,
        trace := s.trace ++ [FwdEvent.acq t] }
    | some _ => s
  | FwdCmd.writeByte b :: rest =>
    { s with threads := Function.update s.threads t rest,
             trace := s.trace ++ [FwdEvent.wr t b] }
  | FwdCmd.flushUp :: rest =>
    { s with threads := Function.update s.threads t rest }
  | FwdCmd.release :: rest =>
    { lockOwner := none, threads := Function.update s.threads t rest,
      trace := s.trace ++ [FwdEvent.rel t] }

/-- Run the forwarder's handlers under an arbitrary finite schedule (the
list of thread ids picked to step, in order). -/
def fwdRun (s : FwdState) : List Nat → FwdState
  | [] => s
  | t :: ts => fwdRun (fwdStep s t) ts

/-- Initial state of `start_tcp_forwarder` with one handler thread per
accepted local connection, thread `t` destined to read the batches
`progs[t]` from its local peer: the lock is free, no upstream events. -/
def fwdInit (progs : List (List (List Nat))) : FwdState :=
  ⟨none, fun t => tcp_forwarder_handler_prog (progs.getD t []), []⟩

/-- Remaining-command sequences of a handler that is outside the lock's
critical section: finished, about to read, or about to acquire. -/
inductive OutCrit : List FwdCmd → Prop where
  | done : OutCrit []
  | atRead (c : List Nat) (p : List FwdCmd) (h : OutCrit p) :
      OutCrit (FwdCmd.readChunk c :: FwdCmd.acquire ::
        (c.map FwdCmd.writeByte ++ FwdCmd.flushUp :: FwdCmd.release :: p))
  | atAcquire (c : List Nat) (p : List FwdCmd) (h : OutCrit p) :
      OutCrit (FwdCmd.acquire ::
        (c.map FwdCmd.writeByte ++ FwdCmd.flushUp :: FwdCmd.release :: p))

/-- Remaining-command sequences of a handler that is inside the critical
section (holds the lock): some bytes still to write then flush and
release, or just the release left. -/
inductive InCrit : List FwdCmd → Prop where
  | atWrites (bs : List Nat) (p : List FwdCmd) (h : OutCrit p) :
      InCrit (bs.map FwdCmd.writeByte ++ FwdCmd.flushUp :: FwdCmd.release :: p)
  | atRelease (p : List FwdCmd) (h : OutCrit p) :
      InCrit (FwdCmd.release :: p)

/-- The lock-ownership invariant of the forwarder: every thread is either
outside the critical section, or inside it and then it is the one holding
the lock. -/
def FwdInv (s : FwdState) : Prop :=
  ∀ t, OutCrit (s.threads t) ∨ (InCrit (s.threads t) ∧ s.lockOwner = some t)

/-- Lock owner after a trace of upstream events, starting from owner `o`. -/
def lockAfter : Option Nat → List FwdEvent → Option Nat
  | o, [] => o
  | _, FwdEvent.acq t :: es => lockAfter (some t) es
  | o, FwdEvent.wr _ _ :: es => lockAfter o es
  | _, FwdEvent.rel _ :: es => lockAfter none es

/-- A trace respects the mutual-exclusion lock, starting from owner `o`:
acquisitions happen only when the lock is free, and every write and every
release is performed by the current owner. -/
def WellLockedFrom : Option Nat → List FwdEvent → Prop
  | _, [] => True
  | o, FwdEvent.acq t :: es => o = none ∧ WellLockedFrom (some t) es
  | o, FwdEvent.wr t _ :: es => o = some t ∧ WellLockedFrom o es
  | o, FwdEvent.rel t :: es => o = some t ∧ WellLockedFrom none es

/-- A trace respects the lock from the initial free state. -/
def WellLocked (es : List FwdEvent) : Prop :=
  WellLockedFrom none es

/-- A trace is serialized: a sequence of complete lock sessions, each an
acquisition by one thread, that same thread's writes only, and its
release, possibly ending in one unfinished session. No two threads'
writes interleave within a session. -/
inductive SerializedTrace : List FwdEvent → Prop where
  | nil : SerializedTrace []
  | complete (t : Nat) (bs : List Nat) (rest : List FwdEvent)
      (h : SerializedTrace rest) :
      SerializedTrace (FwdEvent.acq t :: bs.map (FwdEvent.wr t) ++
        FwdEvent.rel t :: rest)
  | unfinished (t : Nat) (bs : List Nat) :
      SerializedTrace (FwdEvent.acq t :: bs.map (FwdEvent.wr t))

/-- Claim C1: in every client role (TCP client, UDP client, DuplexTester),
once a full reply has been received in an iteration, the received buffer
is compared byte-for-byte with the sent buffer, and any mismatch ends the
run right there with the assertion failure: zero durations are printed
from that point on and no further iteration runs — a mismatch is never a
warning and never skipped. -/
theorem client_mismatch_is_fatal :
    (∀ (dataSize : Nat) (payload : Nat → List Nat) (env : Nat → TcpIterEnv)
        (rem i : Nat) (r : List Nat),
      (env i).writeOk = true →
      readExactResult dataSize (env i).readRes = Except.ok r →
      r ≠ payload i →
      start_tcp_client_loop dataSize payload env (rem + 1) i
        = ⟨0, ClientExit.assertFail i⟩) ∧
    (∀ (dataSize : Nat) (payload : Nat → List Nat) (env : Nat → TcpIterEnv)
        (rem i : Nat) (r : List Nat),
      (env i).writeOk = true →
      readExactResult dataSize (env i).readRes = Except.ok r →
      r ≠ payload i →
      start_tcp_tester_loop dataSize payload env (rem + 1) i
        = ⟨0, ClientExit.assertFail i⟩) ∧
    (∀ (payload : Nat → List Nat) (env : Nat → UdpIterEnv)
        (rem i : Nat) (recvData dgram : List Nat),
      (env i).sendOk = true →
      (env i).recvRes = Except.ok dgram →
      udpRecvInto recvData dgram ≠ payload i →
      start_udp_client_loop payload env (rem + 1) i recvData
        = ⟨0, ClientExit.assertFail i⟩) := by
  refine ⟨?_, ?_, ?_⟩
  · intro dataSize payload env rem i r hw hr hne
    simp only [start_tcp_client_loop, writeAllOk, hw, Bool.or_true, if_true, hr]
    rw [if_neg (fun h => hne h.symm)]
  · intro dataSize payload env rem i r hw hr hne
    simp only [start_tcp_tester_loop, writeAllOk, hw, Bool.or_true, if_true, hr]
    rw [if_neg (fun h => hne h.symm)]
  · intro payload env rem i recvData dgram hs hr hne
    simp only [start_udp_client_loop, hs, if_true, hr]
    rw [if_neg (fun h => hne h.symm)]

/-- Concrete instance of `client_mismatch_is_fatal`: a reply of `[1]` to a
sent payload of `[0]` aborts each client role with the assertion failure
at iteration 0. -/
theorem client_mismatch_is_fatal_witness :
    start_tcp_client_loop 1 (fun _ => [0]) (fun _ => ⟨true, Except.ok [1]⟩) 1 0
      = ⟨0, ClientExit.assertFail 0⟩ ∧
    start_tcp_tester_loop 1 (fun _ => [0]) (fun _ => ⟨true, Except.ok [1]⟩) 1 0
      = ⟨0, ClientExit.assertFail 0⟩ ∧
    start_udp_client_loop (fun _ => [0]) (fun _ => ⟨true, Except.ok [1]⟩) 1 0 [0]
      = ⟨0, ClientExit.assertFail 0⟩ :=
  ⟨client_mismatch_is_fatal.1 1 (fun _ => [0]) (fun _ => ⟨true, Except.ok [1]⟩)
      0 0 [1] rfl rfl (by decide),
   client_mismatch_is_fatal.2.1 1 (fun _ => [0]) (fun _ => ⟨true, Except.ok [1]⟩)
      0 0 [1] rfl rfl (by decide),
   client_mismatch_is_fatal.2.2 (fun _ => [0]) (fun _ => ⟨true, Except.ok [1]⟩)
      0 0 [0] [1] rfl rfl (by decide)⟩

lemma start_tcp_client_loop_all_ok (dataSize : Nat) (payload : Nat → List Nat)
    (env : Nat → TcpIterEnv) :
    ∀ rem i, (∀ j, i ≤ j → j < i + rem →
        writeAllOk (payload j) (env j).writeOk = true ∧
        readExactResult dataSize (env j).readRes = Except.ok (payload j)) →
      start_tcp_client_loop dataSize payload env rem i
        = ⟨rem, ClientExit.success⟩ := by
  intro rem
  induction rem with
  | zero => intro i _; rfl
  | succ r ih =>
    intro i h
    obtain ⟨hw, hr⟩ := h i (Nat.le_refl i) (by omega)
    simp only [start_tcp_client_loop, hw, if_true, hr]
    rw [ih (i + 1) (fun j hj1 hj2 => h j (by omega) (by omega))]

lemma start_tcp_tester_loop_all_ok (dataSize : Nat) (payload : Nat → List Nat)
    (env : Nat → TcpIterEnv) :
    ∀ rem i, (∀ j, i ≤ j → j < i + rem →
        writeAllOk (payload j) (env j).writeOk = true ∧
        readExactResult dataSize (env j).readRes = Except.ok (payload j)) →
      start_tcp_tester_loop dataSize payload env rem i
        = ⟨rem, ClientExit.success⟩ := by
  intro rem
  induction rem with
  | zero => intro i _; rfl
  | succ r ih =>
    intro i h
    obtain ⟨hw, hr⟩ := h i (Nat.le_refl i) (by omega)
    simp only [start_tcp_tester_loop, hw, if_true, hr]
    rw [ih (i + 1) (fun j hj1 hj2 => h j (by omega) (by omega))]

lemma start_tcp_client_loop_err (dataSize : Nat) (payload : Nat → List Nat)
    (env : Nat → TcpIterEnv) :
    ∀ rem i k, i ≤ k → k < i + rem →
      (∀ j, i ≤ j → j < k →
        writeAllOk (payload j) (env j).writeOk = true ∧
        readExactResult dataSize (env j).readRes = Except.ok (payload j)) →
      (writeAllOk (payload k) (env k).writeOk = false →
        start_tcp_client_loop dataSize payload env rem i
          = ⟨k - i, ClientExit.writeErr k⟩) ∧
      (writeAllOk (payload k) (env k).writeOk = true →
        readExactResult dataSize (env k).readRes = Except.error () →
        start_tcp_client_loop dataSize payload env rem i
          = ⟨k - i, ClientExit.readErr k⟩) := by
  intro rem
  induction rem with
  | zero => intro i k h1 h2 _; omega
  | succ r ih =>
    intro i k hik hk h
    by_cases hki : k = i
    · subst hki
      constructor
      · intro hw
        simp [start_tcp_client_loop, hw]
      · intro hw hr
        simp [start_tcp_client_loop, hw, hr]
    · have hik' : i < k := by omega
      obtain ⟨hw, hr⟩ := h i (Nat.le_refl i) hik'
      have ihk := ih (i + 1) k (by omega) (by omega)
        (fun j hj1 hj2 => h j (by omega) hj2)
      have hsub : k - (i + 1) + 1 = k - i := by omega
      constructor
      · intro hwk
        simp only [start_tcp_client_loop, hw, if_true, hr]
        rw [ihk.1 hwk]
        simp [hsub]
      · intro hwk hrk
        simp only [start_tcp_client_loop, hw, if_true, hr]
        rw [ihk.2 hwk hrk]
        simp [hsub]

lemma udpRecvInto_full (buf d : List Nat) (h : d.length = buf.length) :
    udpRecvInto buf d = d := by
  simp only [udpRecvInto]
  rw [h, Nat.min_self, List.drop_length, List.append_nil, ← h, List.take_length]

lemma udpRecvInto_nil (d : List Nat) : udpRecvInto [] d = [] := by
  simp [udpRecvInto]

lemma start_udp_client_loop_all_ok (dataSize : Nat) (payload : Nat → List Nat)
    (env : Nat → UdpIterEnv) (hlen : ∀ j, (payload j).length = dataSize) :
    ∀ rem i recvData, recvData.length = dataSize →
      (∀ j, i ≤ j → j < i + rem →
        (env j).sendOk = true ∧ (env j).recvRes = Except.ok (payload j)) →
      start_udp_client_loop payload env rem i recvData
        = ⟨rem, ClientExit.success⟩ := by
  intro rem
  induction rem with
  | zero => intro i recvData _ _; rfl
  | succ r ih =>
    intro i recvData hbuf h
    obtain ⟨hs, hr⟩ := h i (Nat.le_refl i) (by omega)
    have hfull : udpRecvInto recvData (payload i) = payload i :=
      udpRecvInto_full recvData (payload i) (by rw [hlen, hbuf])
    simp only [start_udp_client_loop, hs, if_true, hr, hfull]
    rw [ih (i + 1) (payload i) (by rw [hlen])
      (fun j hj1 hj2 => h j (by omega) (by omega))]

lemma start_udp_client_loop_err (dataSize : Nat) (payload : Nat → List Nat)
    (env : Nat → UdpIterEnv) (hlen : ∀ j, (payload j).length = dataSize) :
    ∀ rem i k recvData, recvData.length = dataSize → i ≤ k → k < i + rem →
      (∀ j, i ≤ j → j < k →
        (env j).sendOk = true ∧ (env j).recvRes = Except.ok (payload j)) →
      ((env k).sendOk = false →
        start_udp_client_loop payload env rem i recvData
          = ⟨k - i, ClientExit.writeErr k⟩) ∧
      ((env k).sendOk = true → (env k).recvRes = Except.error () →
        start_udp_client_loop payload env rem i recvData
          = ⟨k - i, ClientExit.readErr k⟩) := by
  intro rem
  induction rem with
  | zero => intro i k recvData _ h1 h2 _; omega
  | succ r ih =>
    intro i k recvData hbuf hik hk h
    by_cases hki : k = i
    · subst hki
      constructor
      · intro hs
        simp [start_udp_client_loop, hs]
      · intro hs hr
        simp [start_udp_client_loop, hs, hr]
    · have hik' : i < k := by omega
      obtain ⟨hs, hr⟩ := h i (Nat.le_refl i) hik'
      have hfull : udpRecvInto recvData (payload i) = payload i :=
        udpRecvInto_full recvData (payload i) (by rw [hlen, hbuf])
      have ihk := ih (i + 1) k (payload i) (by rw [hlen]) (by omega) (by omega)
        (fun j hj1 hj2 => h j (by omega) hj2)
      have hsub : k - (i + 1) + 1 = k - i := by omega
      constructor
      · intro hsk
        simp only [start_udp_client_loop, hs, if_true, hr, hfull]
        rw [ihk.1 hsk]
        simp [hsub]
      · intro hsk hrk
        simp only [start_udp_client_loop, hs, if_true, hr, hfull]
        rw [ihk.2 hsk hrk]
        simp [hsub]

lemma tcp_env_good (dataSize : Nat) (payload : Nat → List Nat)
    (env : Nat → TcpIterEnv) (hlen : ∀ j, (payload j).length = dataSize)
    (j : Nat)
    (hj : (env j).writeOk = true ∧ (env j).readRes = Except.ok (payload j)) :
    writeAllOk (payload j) (env j).writeOk = true ∧
    readExactResult dataSize (env j).readRes = Except.ok (payload j) := by
  refine ⟨by simp [writeAllOk, hj.1], ?_⟩
  by_cases h0 : dataSize = 0
  · have hnil : payload j = [] := List.length_eq_zero.mp (by rw [hlen j, h0])
    simp [readExactResult, h0, hnil]
  · simp [readExactResult, h0, hj.2]

/-- Claim C3: a latency client run in which every iteration's send
succeeds and the reply equals the sent payload performs exactly `repeat`
iterations and prints exactly `repeat` durations; and if the iterations
before `k` are clean but iteration `k` hits a write/send or read/recv
error, the whole run stops at `k` (printing `k` durations, retrying
nothing). Stated for `start_tcp_client` and `start_udp_client`. -/
theorem latency_client_iteration_discipline :
    (∀ (dataSize : Nat) (payload : Nat → List Nat) (env : Nat → TcpIterEnv)
        (rep : Nat),
      (∀ j, (payload j).length = dataSize) →
      (∀ j, j < rep →
        (env j).writeOk = true ∧ (env j).readRes = Except.ok (payload j)) →
      start_tcp_client_run dataSize payload env rep
        = ⟨rep, ClientExit.success⟩) ∧
    (∀ (dataSize : Nat) (payload : Nat → List Nat) (env : Nat → TcpIterEnv)
        (rep k : Nat),
      (∀ j, (payload j).length = dataSize) → k < rep →
      (∀ j, j < k →
        (env j).writeOk = true ∧ (env j).readRes = Except.ok (payload j)) →
      (writeAllOk (payload k) (env k).writeOk = false →
        start_tcp_client_run dataSize payload env rep
          = ⟨k, ClientExit.writeErr k⟩) ∧
      (writeAllOk (payload k) (env k).writeOk = true →
        readExactResult dataSize (env k).readRes = Except.error () →
        start_tcp_client_run dataSize payload env rep
          = ⟨k, ClientExit.readErr k⟩)) ∧
    (∀ (dataSize : Nat) (payload : Nat → List Nat) (env : Nat → UdpIterEnv)
        (rep : Nat),
      (∀ j, (payload j).length = dataSize) →
      (∀ j, j < rep →
        (env j).sendOk = true ∧ (env j).recvRes = Except.ok (payload j)) →
      start_udp_client_run dataSize payload env rep
        = ⟨rep, ClientExit.success⟩) ∧
    (∀ (dataSize : Nat) (payload : Nat → List Nat) (env : Nat → UdpIterEnv)
        (rep k : Nat),
      (∀ j, (payload j).length = dataSize) → k < rep →
      (∀ j, j < k →
        (env j).sendOk = true ∧ (env j).recvRes = Except.ok (payload j)) →
      ((env k).sendOk = false →
        start_udp_client_run dataSize payload env rep
          = ⟨k, ClientExit.writeErr k⟩) ∧
      ((env k).sendOk = true → (env k).recvRes = Except.error () →
        start_udp_client_run dataSize payload env rep
          = ⟨k, ClientExit.readErr k⟩)) := by
  refine ⟨?_, ?_, ?_, ?_⟩
  · intro dataSize payload env rep hlen henv
    exact start_tcp_client_loop_all_ok dataSize payload env rep 0
      (fun j _ hj2 => tcp_env_good dataSize payload env hlen j
        (henv j (by omega)))
  · intro dataSize payload env rep k hlen hk hpre
    have h := start_tcp_client_loop_err dataSize payload env rep 0 k
      (by omega) (by omega)
      (fun j _ hj2 => tcp_env_good dataSize payload env hlen j (hpre j hj2))
    constructor
    · intro hw; simpa using h.1 hw
    · intro hw hr; simpa using h.2 hw hr
  · intro dataSize payload env rep hlen henv
    exact start_udp_client_loop_all_ok dataSize payload env hlen rep 0
      (List.replicate dataSize 0) (List.length_replicate dataSize 0)
      (fun j _ hj2 => henv j (by omega))
  · intro dataSize payload env rep k hlen hk hpre
    have h := start_udp_client_loop_err dataSize payload env hlen rep 0 k
      (List.replicate dataSize 0) (List.length_replicate dataSize 0)
      (by omega) (by omega) (fun j _ hj2 => hpre j hj2)
    constructor
    · intro hs; simpa using h.1 hs
    · intro hs hr; simpa using h.2 hs hr

/-- Concrete instance of `latency_client_iteration_discipline`: two clean
iterations print two durations; with a send failure (TCP) or a recv error
(UDP) at iteration 1 of three, the run stops with one printed duration. -/
theorem latency_client_iteration_discipline_witness :
    start_tcp_client_run 1 (fun _ => [5]) (fun _ => ⟨true, Except.ok [5]⟩) 2
      = ⟨2, ClientExit.success⟩ ∧
    start_tcp_client_run 1 (fun _ => [5])
      (fun j => if j = 1 then ⟨false, Except.ok [5]⟩ else ⟨true, Except.ok [5]⟩) 3
      = ⟨1, ClientExit.writeErr 1⟩ ∧
    start_udp_client_run 1 (fun _ => [5]) (fun _ => ⟨true, Except.ok [5]⟩) 2
      = ⟨2, ClientExit.success⟩ ∧
    start_udp_client_run 1 (fun _ => [5])
      (fun j => if j = 1 then ⟨true, Except.error ()⟩ else ⟨true, Except.ok [5]⟩) 3
      = ⟨1, ClientExit.readErr 1⟩ :=
  ⟨latency_client_iteration_discipline.1 1 (fun _ => [5])
      (fun _ => ⟨true, Except.ok [5]⟩) 2 (fun _ => rfl)
      (fun j _ => ⟨rfl, rfl⟩),
   (latency_client_iteration_discipline.2.1 1 (fun _ => [5])
      (fun j => if j = 1 then ⟨false, Except.ok [5]⟩ else ⟨true, Except.ok [5]⟩)
      3 1 (fun _ => rfl) (by omega)
      (fun j hj => by interval_cases j; exact ⟨rfl, rfl⟩)).1 (by decide),
   latency_client_iteration_discipline.2.2.1 1 (fun _ => [5])
      (fun _ => ⟨true, Except.ok [5]⟩) 2 (fun _ => rfl)
      (fun j _ => ⟨rfl, rfl⟩),
   (latency_client_iteration_discipline.2.2.2 1 (fun _ => [5])
      (fun j => if j = 1 then ⟨true, Except.error ()⟩ else ⟨true, Except.ok [5]⟩)
      3 1 (fun _ => rfl) (by omega)
      (fun j hj => by interval_cases j; exact ⟨rfl, rfl⟩)).2 rfl rfl⟩

lemma start_udp_client_loop_zero (payload : Nat → List Nat)
    (env : Nat → UdpIterEnv) (hpay : ∀ j, payload j = []) :
    ∀ rem i, (∀ j, i ≤ j → j < i + rem →
        (env j).sendOk = true ∧ ∃ d, (env j).recvRes = Except.ok d) →
      start_udp_client_loop payload env rem i []
        = ⟨rem, ClientExit.success⟩ := by
  intro rem
  induction rem with
  | zero => intro i _; rfl
  | succ r ih =>
    intro i h
    obtain ⟨hs, d, hr⟩ := h i (Nat.le_refl i) (by omega)
    simp only [start_udp_client_loop, hs, if_true, hr, udpRecvInto_nil, hpay i]
    rw [ih (i + 1) (fun j hj1 hj2 => h j (by omega) (by omega))]

/-- Claim C8 is false as stated for the UDP client role: at
`data_size = 0` its `socket.send` is still a real system call on a
socket that was never connected, so it fails (destination required), the
`.unwrap()` aborts the run at iteration 0, and no duration is emitted —
the iteration does not complete as a zero-length round trip. The
counterexample evaluates `start_udp_client_run` at `data_size = 0`,
`repeat = 1`, in the environment where that send fails. -/
theorem zero_data_size_udp_counterexample :
    start_udp_client_run 0 (fun _ => []) (fun _ => ⟨false, Except.error ()⟩) 1
      = ⟨0, ClientExit.writeErr 0⟩ := rfl

/-- Claim C8, amended: with `data_size = 0` every iteration of the TCP
client and of the DuplexTester completes as a zero-length round trip for
every environment whatsoever — the empty `write_all` and the empty
`read_exact` touch no I/O, the comparison trivially succeeds, and a
duration is printed each iteration. The UDP client's `send`/`recv`
remain real datagram calls even at size 0, so its iterations complete
(with the trivially passing comparison) only when each send succeeds and
a reply datagram arrives; on its unconnected socket the first send's
failure instead aborts the run. -/
theorem zero_data_size_round_trips :
    (∀ (payload : Nat → List Nat) (env : Nat → TcpIterEnv) (rep : Nat),
      (∀ j, payload j = []) →
      start_tcp_client_run 0 payload env rep = ⟨rep, ClientExit.success⟩) ∧
    (∀ (payload : Nat → List Nat) (env : Nat → TcpIterEnv) (rep : Nat),
      (∀ j, payload j = []) →
      start_tcp_tester_loop 0 payload env rep 0
        = ⟨rep, ClientExit.success⟩) ∧
    (∀ (payload : Nat → List Nat) (env : Nat → UdpIterEnv) (rep : Nat),
      (∀ j, payload j = []) →
      (∀ j, j < rep →
        (env j).sendOk = true ∧ ∃ d, (env j).recvRes = Except.ok d) →
      start_udp_client_run 0 payload env rep = ⟨rep, ClientExit.success⟩) := by
  refine ⟨?_, ?_, ?_⟩
  · intro payload env rep hpay
    exact start_tcp_client_loop_all_ok 0 payload env rep 0
      (fun j _ _ => ⟨by simp [writeAllOk, hpay j],
        by simp [readExactResult, hpay j]⟩)
  · intro payload env rep hpay
    exact start_tcp_tester_loop_all_ok 0 payload env rep 0
      (fun j _ _ => ⟨by simp [writeAllOk, hpay j],
        by simp [readExactResult, hpay j]⟩)
  · intro payload env rep hpay henv
    exact start_udp_client_loop_zero payload env hpay rep 0
      (fun j _ hj2 => henv j (by omega))

/-- Concrete instance of `zero_data_size_round_trips`: at `data_size = 0`
the TCP roles complete three iterations even against an environment that
would fail every read and write, and the UDP client completes three
iterations when (possibly nonempty) reply datagrams arrive. -/
theorem zero_data_size_round_trips_witness :
    start_tcp_client_run 0 (fun _ => []) (fun _ => ⟨false, Except.error ()⟩) 3
      = ⟨3, ClientExit.success⟩ ∧
    start_tcp_tester_loop 0 (fun _ => []) (fun _ => ⟨false, Except.error ()⟩) 3 0
      = ⟨3, ClientExit.success⟩ ∧
    start_udp_client_run 0 (fun _ => []) (fun _ => ⟨true, Except.ok [9, 9]⟩) 3
      = ⟨3, ClientExit.success⟩ :=
  ⟨zero_data_size_round_trips.1 (fun _ => []) (fun _ => ⟨false, Except.error ()⟩)
      3 (fun _ => rfl),
   zero_data_size_round_trips.2.1 (fun _ => []) (fun _ => ⟨false, Except.error ()⟩)
      3 (fun _ => rfl),
   zero_data_size_round_trips.2.2 (fun _ => []) (fun _ => ⟨true, Except.ok [9, 9]⟩)
      3 (fun _ => rfl) (fun _ _ => ⟨rfl, [9, 9], rfl⟩)⟩

/-- Claim C2: for every unit of data the echo server receives — one TCP
read of at most `max_data_size` bytes, or one UDP datagram of at most
`max_data_size` bytes — it writes exactly those bytes back to the same
peer, unmodified, before processing the next unit; hence an all-clean run
echoes every received byte sequence verbatim, in order. -/
theorem echo_server_echoes_exactly :
    (∀ (maxDataSize : Nat) (raw : List Nat) (rest : List SrvIter),
      raw.length ≤ maxDataSize →
      tcp_server_handle_client maxDataSize (⟨Except.ok raw, true⟩ :: rest)
        = (raw :: (tcp_server_handle_client maxDataSize rest).1,
           (tcp_server_handle_client maxDataSize rest).2)) ∧
    (∀ (maxDataSize : Nat) (chunks : List (List Nat)),
      (∀ b ∈ chunks, 1 ≤ b.length ∧ b.length ≤ maxDataSize) →
      tcp_server_handle_client maxDataSize
          (chunks.map fun c => ⟨Except.ok c, true⟩)
        = (chunks, SrvExit.pending)) ∧
    (∀ (α : Type) (maxDataSize : Nat) (dgrams : List (List Nat × α)),
      (∀ p ∈ dgrams, 1 ≤ p.1.length ∧ p.1.length ≤ maxDataSize) →
      start_udp_server maxDataSize (dgrams.map fun p => ⟨Except.ok p, true⟩)
        = dgrams) := by
  refine ⟨?_, ?_, ?_⟩
  · intro maxDS raw rest hlen
    simp [tcp_server_handle_client, List.take_of_length_le hlen]
  · intro maxDS chunks
    induction chunks with
    | nil => intro _; rfl
    | cons c cs ih =>
      intro h
      obtain ⟨h1, h2⟩ := h c (List.mem_cons_self c cs)
      simp [tcp_server_handle_client, List.take_of_length_le h2,
        ih (fun b hb => h b (List.mem_cons_of_mem c hb))]
  · intro α maxDS dgrams
    induction dgrams with
    | nil => intro _; rfl
    | cons p ps ih =>
      intro h
      obtain ⟨d, peer⟩ := p
      obtain ⟨h1, h2⟩ := h (d, peer) (List.mem_cons_self (d, peer) ps)
      simp only [List.length] at h2
      simp [start_udp_server, List.take_of_length_le h2,
        ih (fun q hq => h q (List.mem_cons_of_mem (d, peer) hq))]

/-- Concrete instance of `echo_server_echoes_exactly`: a TCP read of
`[3, 1]` is echoed before the next unit; clean TCP and UDP runs echo all
their units verbatim. -/
theorem echo_server_echoes_exactly_witness :
    tcp_server_handle_client 4 [⟨Except.ok [3, 1], true⟩]
      = ([[3, 1]], SrvExit.pending) ∧
    tcp_server_handle_client 4 ([[1], [2, 2]].map fun c => ⟨Except.ok c, true⟩)
      = ([[1], [2, 2]], SrvExit.pending) ∧
    start_udp_server 4
        (([([7], 0), ([8, 9], 1)] : List (List Nat × Nat)).map
          fun p => ⟨Except.ok p, true⟩)
      = [([7], 0), ([8, 9], 1)] :=
  ⟨echo_server_echoes_exactly.1 4 [3, 1] [] (by decide),
   echo_server_echoes_exactly.2.1 4 [[1], [2, 2]] (by decide),
   echo_server_echoes_exactly.2.2 Nat 4 [([7], 0), ([8, 9], 1)] (by decide)⟩

/-- Claim C4 is refuted by the code: after the peer closes the
connection, `stream.read` returns `Ok(0)` on every call, the `while let
Ok(size)` condition keeps succeeding, and the handler loops forever
writing zero bytes per pass — for every fuel bound the loop has not
exited (first conjunct), and `n` consecutive end-of-file reads leave it
still pending after `n` zero-byte writes (second conjunct). The loop does
end on a read `Err`, but never on end-of-file. -/
theorem tcp_server_handler_spins_on_eof :
    (∀ (maxDataSize : Nat) (writeOk : Nat → Bool) (fuel i : Nat),
      tcp_server_handle_client_ends maxDataSize (fun _ => Except.ok [])
        writeOk fuel i = false) ∧
    (∀ (maxDataSize n : Nat),
      tcp_server_handle_client maxDataSize
          (List.replicate n ⟨Except.ok [], true⟩)
        = (List.replicate n [], SrvExit.pending)) := by
  constructor
  · intro maxDS writeOk fuel
    induction fuel with
    | zero => intro i; rfl
    | succ f ih => intro i; simp [tcp_server_handle_client_ends, ih]
  · intro maxDS n
    induction n with
    | zero => rfl
    | succ m ih => simp [List.replicate_succ, tcp_server_handle_client, ih]

lemma start_udp_forwarder_dest {α : Type} (remoteAddr : α) (maxDataSize : Nat) :
    ∀ (env : List UdpFwdIter) (p : List Nat × α),
      p ∈ start_udp_forwarder remoteAddr maxDataSize env → p.2 = remoteAddr := by
  intro env
  induction env with
  | nil => intro p hp; simp [start_udp_forwarder] at hp
  | cons it rest ih =>
    intro p hp
    simp only [start_udp_forwarder] at hp
    cases hres : it.recvRes with
    | error e => rw [hres] at hp; simp at hp
    | ok d =>
      rw [hres] at hp
      by_cases hs : it.sendOk
      · simp only [hs, if_true, List.mem_cons] at hp
        rcases hp with hp | hp
        · rw [hp]
        · exact ih p hp
      · simp [hs] at hp

/-- Claim C5: every datagram the UDP forwarder receives is sent on, byte
for byte, to the fixed `remote_addr` (second conjunct, for datagrams
within the buffer size); every send it ever performs targets
`remote_addr` (first conjunct); and consequently no send ever targets any
other address, in particular never the datagram's original source
(third conjunct). -/
theorem udp_forwarder_relays_to_remote_only :
    (∀ (α : Type) (remoteAddr : α) (maxDataSize : Nat)
        (env : List UdpFwdIter) (p : List Nat × α),
      p ∈ start_udp_forwarder remoteAddr maxDataSize env →
      p.2 = remoteAddr) ∧
    (∀ (α : Type) (remoteAddr : α) (maxDataSize : Nat)
        (dgrams : List (List Nat)),
      (∀ d ∈ dgrams, d.length ≤ maxDataSize) →
      start_udp_forwarder remoteAddr maxDataSize
          (dgrams.map fun d => ⟨Except.ok d, true⟩)
        = dgrams.map fun d => (d, remoteAddr)) ∧
    (∀ (α : Type) [DecidableEq α] (remoteAddr srcAddr : α)
        (maxDataSize : Nat) (env : List UdpFwdIter),
      srcAddr ≠ remoteAddr →
      (start_udp_forwarder remoteAddr maxDataSize env).filter
          (fun p => decide (p.2 = srcAddr)) = []) := by
  refine ⟨?_, ?_, ?_⟩
  · intro α remoteAddr maxDS env p hp
    exact start_udp_forwarder_dest remoteAddr maxDS env p hp
  · intro α remoteAddr maxDS dgrams
    induction dgrams with
    | nil => intro _; rfl
    | cons d ds ih =>
      intro h
      simp [start_udp_forwarder,
        List.take_of_length_le (h d (List.mem_cons_self d ds)),
        ih (fun q hq => h q (List.mem_cons_of_mem d hq))]
  · intro α _ remoteAddr srcAddr maxDS env hne
    rw [List.filter_eq_nil_iff]
    intro a ha
    simp only [decide_eq_true_eq]
    rw [start_udp_forwarder_dest remoteAddr maxDS env a ha]
    exact fun h => hne h.symm

/-- Concrete instance of `udp_forwarder_relays_to_remote_only`: with
remote address 7, a received `[4, 2]` is sent to 7; two datagrams are
relayed verbatim to 9; and no send ever targets source address 5. -/
theorem udp_forwarder_relays_to_remote_only_witness :
    (([4, 2], 7) : List Nat × Nat).2 = 7 ∧
    start_udp_forwarder 9 3 (([[1], [2, 3]] : List (List Nat)).map
        fun d => ⟨Except.ok d, true⟩)
      = [([1], 9), ([2, 3], 9)] ∧
    (start_udp_forwarder 9 3 [⟨Except.ok [1], true⟩]).filter
        (fun p => decide (p.2 = 5)) = [] :=
  ⟨udp_forwarder_relays_to_remote_only.1 Nat 7 16 [⟨Except.ok [4, 2], true⟩]
      ([4, 2], 7) (by decide),
   udp_forwarder_relays_to_remote_only.2.1 Nat 9 3 [[1], [2, 3]] (by decide),
   udp_forwarder_relays_to_remote_only.2.2 Nat 9 5 3 [⟨Except.ok [1], true⟩]
      (by decide)⟩

lemma start_udp_client_calls_loop_plain {α : Type} (payload : Nat → List Nat)
    (env : Nat → UdpIterEnv) :
    ∀ rem i recvData,
      ((start_udp_client_calls_loop (α := α) payload env rem i recvData).all
        fun c => isPlainSendRecv c) = true := by
  intro rem
  induction rem with
  | zero => intro i recvData; rfl
  | succ r ih =>
    intro i recvData
    simp only [start_udp_client_calls_loop, List.all_cons, isPlainSendRecv,
      Bool.true_and]
    by_cases hs : (env i).sendOk
    · simp only [hs, if_true, List.all_cons, isPlainSendRecv, Bool.true_and]
      cases hr : (env i).recvRes with
      | error e => rfl
      | ok d =>
        by_cases hm : payload i = udpRecvInto recvData d
        · simp only [hm, if_pos rfl]
          simpa using ih (i + 1) (udpRecvInto recvData d)
        · simp [hm]
    · simp [hs]

/-- Claim C9: the UDP client only ever binds the given local address —
its call sequence starts with that single `bind`, and every following
call is a destination-less `send` or a `recv` (never `connect`, never
`send_to`); with at least one iteration the first call after the bind is
the iteration's destination-less `send`; and if that first send fails the
whole run aborts through the `.unwrap()` with nothing printed. -/
theorem udp_client_unconnected_socket :
    (∀ (α : Type) (localAddr : α) (dataSize : Nat)
        (payload : Nat → List Nat) (env : Nat → UdpIterEnv) (rep : Nat),
      (start_udp_client_calls localAddr dataSize payload env rep).head?
          = some (UdpCall.bind localAddr) ∧
      ((start_udp_client_calls localAddr dataSize payload env rep).tail.all
          fun c => isPlainSendRecv c) = true) ∧
    (∀ (α : Type) (localAddr : α) (dataSize : Nat)
        (payload : Nat → List Nat) (env : Nat → UdpIterEnv) (rep : Nat),
      1 ≤ rep →
      (start_udp_client_calls localAddr dataSize payload env rep).get? 1
          = some (UdpCall.send (payload 0))) ∧
    (∀ (dataSize : Nat) (payload : Nat → List Nat) (env : Nat → UdpIterEnv)
        (rep : Nat),
      1 ≤ rep → (env 0).sendOk = false →
      start_udp_client_run dataSize payload env rep
        = ⟨0, ClientExit.writeErr 0⟩) := by
  refine ⟨?_, ?_, ?_⟩
  · intro α localAddr dataSize payload env rep
    exact ⟨rfl, start_udp_client_calls_loop_plain payload env rep 0
      (List.replicate dataSize 0)⟩
  · intro α localAddr dataSize payload env rep hrep
    cases rep with
    | zero => omega
    | succ r => rfl
  · intro dataSize payload env rep hrep hs
    cases rep with
    | zero => omega
    | succ r => simp [start_udp_client_run, start_udp_client_loop, hs]

/-- Concrete instance of `udp_client_unconnected_socket`: with two
iterations the second call is the destination-less `send` of the first
payload, and a failing first send aborts the run with nothing printed. -/
theorem udp_client_unconnected_socket_witness :
    (start_udp_client_calls (3 : Nat) 2 (fun _ => [1, 1])
        (fun _ => ⟨true, Except.ok [1, 1]⟩) 2).get? 1
      = some (UdpCall.send [1, 1]) ∧
    start_udp_client_run 1 (fun _ => [2]) (fun _ => ⟨false, Except.ok [2]⟩) 1
      = ⟨0, ClientExit.writeErr 0⟩ :=
  ⟨udp_client_unconnected_socket.2.1 Nat 3 2 (fun _ => [1, 1])
      (fun _ => ⟨true, Except.ok [1, 1]⟩) 2 (by decide),
   udp_client_unconnected_socket.2.2 1 (fun _ => [2])
      (fun _ => ⟨false, Except.ok [2]⟩) 1 (by decide) rfl⟩

lemma start_tcp_tester_retry_first_success {α : Type} (remoteAddr : α)
    (conn : Nat → Bool) :
    ∀ (K k fuel : Nat), conn (k + K) = true →
      (∀ j, j < K → conn (k + j) = false) → K < fuel →
      start_tcp_tester_retry remoteAddr conn fuel k
        = (List.replicate K (testerFailBlock remoteAddr)).flatten ++
          [TesterEvent.connectTry remoteAddr true,
           TesterEvent.logConnected remoteAddr] := by
  intro K
  induction K with
  | zero =>
    intro k fuel hK _ hfuel
    cases fuel with
    | zero => omega
    | succ f =>
      rw [Nat.add_zero] at hK
      simp [start_tcp_tester_retry, hK]
  | succ K ih =>
    intro k fuel hK hpre hfuel
    cases fuel with
    | zero => omega
    | succ f =>
      have h0 : conn k = false := by
        have := hpre 0 (by omega); simpa using this
      have hK' : conn (k + 1 + K) = true := by
        have he : k + 1 + K = k + (K + 1) := by omega
        rw [he]; exact hK
      have hpre' : ∀ j, j < K → conn (k + 1 + j) = false := by
        intro j hj
        have he : k + 1 + j = k + (j + 1) := by omega
        rw [he]; exact hpre (j + 1) (by omega)
      simp only [start_tcp_tester_retry, h0, if_false, Bool.false_eq_true]
      rw [ih (k + 1) f hK' hpre' (by omega)]
      simp [List.replicate_succ, testerFailBlock]

lemma start_tcp_tester_retry_all_fail {α : Type} (remoteAddr : α)
    (conn : Nat → Bool) (hconn : ∀ j, conn j = false) :
    ∀ fuel k, start_tcp_tester_retry remoteAddr conn fuel k
      = (List.replicate fuel (testerFailBlock remoteAddr)).flatten := by
  intro fuel
  induction fuel with
  | zero => intro k; rfl
  | succ f ih =>
    intro k
    simp [start_tcp_tester_retry, hconn k, ih (k + 1), List.replicate_succ,
      testerFailBlock]

/-- Claim C7: the DuplexTester's send leg polls `TcpStream::connect` with
a fixed one-second sleep and one "trying to connect" log line per failed
attempt, stops exactly at the first successful attempt and logs the
success (first conjunct); while no attempt succeeds it keeps retrying,
one identical fail block per attempt, for any bound (second conjunct).
No other role retries: the TCP client's single failed connect yields no
run at all, and the TCP forwarder startup makes exactly one connect
attempt after a successful bind and none after a failed one (remaining
conjuncts). -/
theorem tester_retry_connect_behavior :
    (∀ (α : Type) (remoteAddr : α) (conn : Nat → Bool) (K fuel : Nat),
      conn K = true → (∀ j, j < K → conn j = false) → K < fuel →
      start_tcp_tester_retry remoteAddr conn fuel 0
        = (List.replicate K (testerFailBlock remoteAddr)).flatten ++
          [TesterEvent.connectTry remoteAddr true,
           TesterEvent.logConnected remoteAddr]) ∧
    (∀ (α : Type) (remoteAddr : α) (conn : Nat → Bool) (fuel k : Nat),
      (∀ j, conn j = false) →
      start_tcp_tester_retry remoteAddr conn fuel k
        = (List.replicate fuel (testerFailBlock remoteAddr)).flatten) ∧
    (∀ (dataSize : Nat) (payload : Nat → List Nat) (env : Nat → TcpIterEnv)
        (rep : Nat),
      start_tcp_client_role false dataSize payload env rep = none) ∧
    (∀ connectOk : Bool,
      start_tcp_forwarder_startup false connectOk = (0, false) ∧
      start_tcp_forwarder_startup true connectOk = (1, connectOk)) := by
  refine ⟨?_, ?_, ?_, ?_⟩
  · intro α remoteAddr conn K fuel hK hpre hfuel
    exact start_tcp_tester_retry_first_success remoteAddr conn K 0 fuel
      (by simpa using hK) (fun j hj => by simpa using hpre j hj) hfuel
  · intro α remoteAddr conn fuel k hconn
    exact start_tcp_tester_retry_all_fail remoteAddr conn hconn fuel k
  · intro dataSize payload env rep; rfl
  · intro connectOk; exact ⟨rfl, rfl⟩

/-- Concrete instance of `tester_retry_connect_behavior`: with the first
two connect attempts failing and the third succeeding, the retry trace is
two fail blocks then the successful attempt and its log; with every
attempt failing, two units of fuel give exactly two fail blocks. -/
theorem tester_retry_connect_behavior_witness :
    start_tcp_tester_retry (8 : Nat) (fun j => j == 2) 3 0
      = (List.replicate 2 (testerFailBlock 8)).flatten ++
        [TesterEvent.connectTry 8 true, TesterEvent.logConnected 8] ∧
    start_tcp_tester_retry (8 : Nat) (fun _ => false) 2 0
      = (List.replicate 2 (testerFailBlock 8)).flatten :=
  ⟨tester_retry_connect_behavior.1 Nat 8 (fun j => j == 2) 2 3 (by decide)
      (by decide) (by decide),
   tester_retry_connect_behavior.2.1 Nat 8 (fun _ => false) 2 0
      (fun _ => rfl)⟩

lemma start_tcp_tester_retry_no_accept {α : Type} (remoteAddr : α)
    (conn : Nat → Bool) :
    ∀ fuel k (e : TesterEvent α),
      e ∈ start_tcp_tester_retry remoteAddr conn fuel k →
      isAcceptEvent e = false := by
  intro fuel
  induction fuel with
  | zero => intro k e he; simp [start_tcp_tester_retry] at he
  | succ f ih =>
    intro k e he
    by_cases h : conn k
    · simp [start_tcp_tester_retry, h] at he
      rcases he with rfl | rfl
      · rfl
      · rfl
    · simp [start_tcp_tester_retry, h] at he
      rcases he with rfl | rfl | rfl | hmem
      · rfl
      · rfl
      · rfl
      · exact ih (k + 1) e hmem

/-- Claim C10: the DuplexTester's setup accepts exactly one inbound
connection, right after binding the listener, and every connect attempt,
sleep and log line of the send leg comes strictly after that accept in
the event order. -/
theorem tester_accept_precedes_connect :
    ∀ (α : Type) (localAddr remoteAddr : α) (conn : Nat → Bool) (fuel : Nat),
      ((start_tcp_tester_setup localAddr remoteAddr conn fuel).countP
        fun e => isAcceptEvent e) = 1 ∧
      (start_tcp_tester_setup localAddr remoteAddr conn fuel).get? 0
        = some (TesterEvent.bindLocal localAddr) ∧
      (start_tcp_tester_setup localAddr remoteAddr conn fuel).get? 1
        = some TesterEvent.acceptConn ∧
      (∀ (i : Nat) (e : TesterEvent α),
        (start_tcp_tester_setup localAddr remoteAddr conn fuel).get? i
          = some e →
        isRetryActivity e = true → 2 ≤ i) := by
  intro α localAddr remoteAddr conn fuel
  refine ⟨?_, rfl, rfl, ?_⟩
  · have h0 : ((start_tcp_tester_retry remoteAddr conn fuel 0).countP
        fun e => isAcceptEvent e) = 0 :=
      List.countP_eq_zero.mpr (fun e he => by
        simp [start_tcp_tester_retry_no_accept remoteAddr conn fuel 0 e he])
    simp only [start_tcp_tester_setup, List.countP_cons]
    rw [h0]
    simp [isAcceptEvent]
  · intro i e hget hact
    match i with
    | 0 =>
      have he : TesterEvent.bindLocal localAddr = e := by
        simpa [start_tcp_tester_setup] using hget
      rw [← he] at hact
      simp [isRetryActivity] at hact
    | 1 =>
      have he : (TesterEvent.acceptConn : TesterEvent α) = e := by
        simpa [start_tcp_tester_setup] using hget
      rw [← he] at hact
      simp [isRetryActivity] at hact
    | n + 2 => omega

/-- Concrete instance of `tester_accept_precedes_connect`: one accept in
the setup trace, and the first retry activity sits at position 2, after
the accept. -/
theorem tester_accept_precedes_connect_witness :
    ((start_tcp_tester_setup (0 : Nat) 1 (fun _ => true) 1).countP
      fun e => isAcceptEvent e) = 1 ∧ 2 ≤ 2 :=
  ⟨(tester_accept_precedes_connect Nat 0 1 (fun _ => true) 1).1,
   (tester_accept_precedes_connect Nat 0 1 (fun _ => true) 1).2.2.2 2
      (TesterEvent.connectTry 1 true) rfl rfl⟩

lemma outCrit_handler_prog : ∀ chunks, OutCrit (tcp_forwarder_handler_prog chunks)
  | [] => OutCrit.done
  | c :: cs =>
    OutCrit.atRead c (tcp_forwarder_handler_prog cs) (outCrit_handler_prog cs)

lemma outCrit_shape {p : List FwdCmd} (h : OutCrit p) :
    p = [] ∨
    (∃ (c : List Nat) (q : List FwdCmd), OutCrit q ∧
      p = FwdCmd.readChunk c :: FwdCmd.acquire ::
        (c.map FwdCmd.writeByte ++ FwdCmd.flushUp :: FwdCmd.release :: q)) ∨
    (∃ (c : List Nat) (q : List FwdCmd), OutCrit q ∧
      p = FwdCmd.acquire ::
        (c.map FwdCmd.writeByte ++ FwdCmd.flushUp :: FwdCmd.release :: q)) := by
  cases h with
  | done => exact Or.inl rfl
  | atRead c q hq => exact Or.inr (Or.inl ⟨c, q, hq, rfl⟩)
  | atAcquire c q hq => exact Or.inr (Or.inr ⟨c, q, hq, rfl⟩)

lemma inCrit_shape {p : List FwdCmd} (h : InCrit p) :
    (∃ (bs : List Nat) (q : List FwdCmd), OutCrit q ∧
      p = bs.map FwdCmd.writeByte ++ FwdCmd.flushUp :: FwdCmd.release :: q) ∨
    (∃ (q : List FwdCmd), OutCrit q ∧ p = FwdCmd.release :: q) := by
  cases h with
  | atWrites bs q hq => exact Or.inl ⟨bs, q, hq, rfl⟩
  | atRelease q hq => exact Or.inr ⟨q, hq, rfl⟩

lemma lockAfter_append (es es' : List FwdEvent) :
    ∀ o, lockAfter o (es ++ es') = lockAfter (lockAfter o es) es' := by
  induction es with
  | nil => intro o; rfl
  | cons e es ih =>
    intro o
    cases e with
    | acq t => rw [List.cons_append]; exact ih (some t)
    | wr t b => rw [List.cons_append]; exact ih o
    | rel t => rw [List.cons_append]; exact ih none

/-- Whether the lock state `o` permits event `e`: acquisitions need a free
lock, writes and releases need the acting thread to be the owner. -/
def eventEnabled : Option Nat → FwdEvent → Prop
  | o, FwdEvent.acq _ => o = none
  | o, FwdEvent.wr t _ => o = some t
  | o, FwdEvent.rel t => o = some t

lemma wellLockedFrom_snoc (e : FwdEvent) :
    ∀ (es : List FwdEvent) (o : Option Nat), WellLockedFrom o es →
      eventEnabled (lockAfter o es) e → WellLockedFrom o (es ++ [e]) := by
  intro es
  induction es with
  | nil =>
    intro o _ hen
    cases e with
    | acq t => exact ⟨hen, trivial⟩
    | wr t b => exact ⟨hen, trivial⟩
    | rel t => exact ⟨hen, trivial⟩
  | cons e0 es ih =>
    intro o hwl hen
    cases e0 with
    | acq t =>
      obtain ⟨h1, h2⟩ := hwl
      exact ⟨h1, ih (some t) h2 hen⟩
    | wr t b =>
      obtain ⟨h1, h2⟩ := hwl
      exact ⟨h1, ih o h2 hen⟩
    | rel t =>
      obtain ⟨h1, h2⟩ := hwl
      exact ⟨h1, ih none h2 hen⟩

/-- Reachability invariant for the forwarder's state: thread positions are
consistent with lock ownership, and the emitted trace both respects the
lock and reproduces the current owner. -/
def FwdReach (s : FwdState) : Prop :=
  FwdInv s ∧ WellLockedFrom none s.trace ∧
    lockAfter none s.trace = s.lockOwner

lemma fwdStep_preserves (s : FwdState) (t : Nat) (h : FwdReach s) :
    FwdReach (fwdStep s t) := by
  obtain ⟨hinv, hwl, hla⟩ := h
  rcases hinv t with hout | ⟨hin, hown⟩
  · rcases outCrit_shape hout with heq | ⟨c, q, hq, heq⟩ | ⟨c, q, hq, heq⟩
    · simp only [fwdStep, heq]
      exact ⟨hinv, hwl, hla⟩
    · simp only [fwdStep, heq]
      refine ⟨?_, hwl, hla⟩
      intro u
      by_cases hu : u = t
      · subst hu
        simp only [Function.update_same]
        exact Or.inl (OutCrit.atAcquire c q hq)
      · simp only [Function.update_noteq hu]
        exact hinv u
    · cases hlock : s.lockOwner with
      | none =>
        simp only [fwdStep, heq, hlock]
        refine ⟨?_, ?_, ?_⟩
        · intro u
          by_cases hu : u = t
          · subst hu
            simp only [Function.update_same]
            exact Or.inr ⟨InCrit.atWrites c q hq, trivial⟩
          · simp only [Function.update_noteq hu]
            rcases hinv u with h1 | ⟨h2, h3⟩
            · exact Or.inl h1
            · rw [hlock] at h3; exact Option.noConfusion h3
        · exact wellLockedFrom_snoc _ s.trace none hwl (hla.trans hlock)
        · rw [lockAfter_append, hla, hlock]; rfl
      | some w =>
        simp only [fwdStep, heq, hlock]
        exact ⟨hinv, hwl, hla⟩
  · rcases inCrit_shape hin with ⟨bs, q, hq, heq⟩ | ⟨q, hq, heq⟩
    · cases bs with
      | nil =>
        simp only [List.map_nil, List.nil_append] at heq
        simp only [fwdStep, heq]
        refine ⟨?_, hwl, hla⟩
        intro u
        by_cases hu : u = t
        · subst hu
          simp only [Function.update_same]
          exact Or.inr ⟨InCrit.atRelease q hq, hown⟩
        · simp only [Function.update_noteq hu]
          exact hinv u
      | cons b bs =>
        simp only [List.map_cons, List.cons_append] at heq
        simp only [fwdStep, heq]
        refine ⟨?_, ?_, ?_⟩
        · intro u
          by_cases hu : u = t
          · subst hu
            simp only [Function.update_same]
            exact Or.inr ⟨InCrit.atWrites bs q hq, hown⟩
          · simp only [Function.update_noteq hu]
            exact hinv u
        · exact wellLockedFrom_snoc _ s.trace none hwl (hla.trans hown)
        · rw [lockAfter_append, hla, hown]; rfl
    · simp only [fwdStep, heq]
      refine ⟨?_, ?_, ?_⟩
      · intro u
        by_cases hu : u = t
        · subst hu
          simp only [Function.update_same]
          exact Or.inl hq
        · simp only [Function.update_noteq hu]
          rcases hinv u with h1 | ⟨h2, h3⟩
          · exact Or.inl h1
          · rw [hown] at h3
            exact absurd (Option.some.inj h3).symm hu
      · exact wellLockedFrom_snoc _ s.trace none hwl (hla.trans hown)
      · rw [lockAfter_append, hla, hown]; rfl

lemma fwdRun_preserves (sched : List Nat) :
    ∀ s, FwdReach s → FwdReach (fwdRun s sched) := by
  induction sched with
  | nil => intro s h; exact h
  | cons t ts ih => intro s h; exact ih (fwdStep s t) (fwdStep_preserves s t h)

lemma fwdInit_reach (progs : List (List (List Nat))) :
    FwdReach (fwdInit progs) := by
  refine ⟨?_, trivial, rfl⟩
  intro t
  exact Or.inl (outCrit_handler_prog (progs.getD t []))

lemma wlf_some_split (t : Nat) :
    ∀ es, WellLockedFrom (some t) es →
      (∃ bs : List Nat, es = bs.map (FwdEvent.wr t)) ∨
      (∃ (bs : List Nat) (rest : List FwdEvent),
        es = bs.map (FwdEvent.wr t) ++ FwdEvent.rel t :: rest ∧
        WellLockedFrom none rest) := by
  intro es
  induction es with
  | nil => exact fun _ => Or.inl ⟨[], rfl⟩
  | cons e es ih =>
    intro h
    cases e with
    | acq u => exact absurd h.1 (by simp)
    | wr u b =>
      obtain ⟨h1, h2⟩ := h
      obtain rfl : u = t := (Option.some.inj h1).symm
      rcases ih h2 with ⟨bs, rfl⟩ | ⟨bs, rest, heq, hrest⟩
      · exact Or.inl ⟨b :: bs, rfl⟩
      · exact Or.inr ⟨b :: bs, rest, by rw [heq]; rfl, hrest⟩
    | rel u =>
      obtain ⟨h1, h2⟩ := h
      obtain rfl : u = t := (Option.some.inj h1).symm
      exact Or.inr ⟨[], es, rfl, h2⟩

lemma serialized_of_wlf :
    ∀ (n : Nat) (es : List FwdEvent), es.length ≤ n →
      WellLockedFrom none es → SerializedTrace es := by
  intro n
  induction n with
  | zero =>
    intro es hlen _
    have hnil : es = [] := List.length_eq_zero.mp (by omega)
    rw [hnil]; exact SerializedTrace.nil
  | succ m ih =>
    intro es hlen hwl
    cases es with
    | nil => exact SerializedTrace.nil
    | cons e es' =>
      cases e with
      | acq t =>
        obtain ⟨_, h2⟩ := hwl
        rcases wlf_some_split t es' h2 with ⟨bs, rfl⟩ | ⟨bs, rest, heq, hrest⟩
        · exact SerializedTrace.unfinished t bs
        · rw [heq]
          have h3 : es'.length ≤ m := by
            simp only [List.length_cons] at hlen; omega
          rw [heq] at h3
          simp only [List.length_append, List.length_map, List.length_cons]
            at h3
          exact SerializedTrace.complete t bs rest
            (ih rest (by omega) hrest)
      | wr t b => exact absurd hwl.1 (by simp)
      | rel t => exact absurd hwl.1 (by simp)

lemma handler_prog_count (chunks : List (List Nat)) :
    (tcp_forwarder_handler_prog chunks).count FwdCmd.acquire
      = chunks.length ∧
    (tcp_forwarder_handler_prog chunks).count FwdCmd.release
      = chunks.length := by
  induction chunks with
  | nil => exact ⟨rfl, rfl⟩
  | cons c cs ih =>
    have hz1 : (c.map FwdCmd.writeByte).count FwdCmd.acquire = 0 :=
      List.count_eq_zero.mpr (by simp)
    have hz2 : (c.map FwdCmd.writeByte).count FwdCmd.release = 0 :=
      List.count_eq_zero.mpr (by simp)
    constructor
    · simp [tcp_forwarder_handler_prog, List.count_cons, List.count_append,
        hz1, ih.1]
    · simp [tcp_forwarder_handler_prog, List.count_cons, List.count_append,
        hz2, ih.2]

/-- Claim C6: under every schedule of the TCP forwarder's concurrent
handlers, the shared-upstream event trace respects the mutual-exclusion
lock (every byte written while its writer owns the lock) and is
serialized into whole lock sessions — one thread's acquisition, only that
thread's writes, then its release — so no two handlers' writes ever
interleave mid-write. Each handler's own program takes the lock exactly
once per read-batch (one acquire and one release per chunk) and releases
it only after the write and the flush. -/
theorem tcp_forwarder_writes_never_interleave :
    (∀ (progs : List (List (List Nat))) (sched : List Nat),
      WellLocked (fwdRun (fwdInit progs) sched).trace ∧
      SerializedTrace (fwdRun (fwdInit progs) sched).trace) ∧
    (∀ chunks : List (List Nat),
      (tcp_forwarder_handler_prog chunks).count FwdCmd.acquire
        = chunks.length ∧
      (tcp_forwarder_handler_prog chunks).count FwdCmd.release
        = chunks.length) := by
  constructor
  · intro progs sched
    have h := fwdRun_preserves sched (fwdInit progs) (fwdInit_reach progs)
    exact ⟨h.2.1, serialized_of_wlf
      (fwdRun (fwdInit progs) sched).trace.length
      (fwdRun (fwdInit progs) sched).trace (Nat.le_refl _) h.2.1⟩
  · exact handler_prog_count
